import Mathlib

/-!
Shallow embedding of the `samp-query` module (`src/index.ts`, current
revision): a client for the SA-MP UDP query protocol.  Buffers are byte
lists, JS numbers that matter are `Int`/`Rat`, fallible operations return
`Except JSError`.  The network is abstracted as an oracle of per-attempt
transport events; everything else (packet construction, response decoding,
the retry loop, the constructor's validation) is translated directly from
the source.
-/

namespace SAMPQuery

/-- A Node `Buffer`'s contents as a list of byte values (latin1 makes each
byte one character, so protocol strings are modelled as byte lists too). -/
abbrev Buf := List Nat

/-- Byte at index `i` of a buffer.  All reads the module performs go through
the bounds-checked readers below; this is only the in-bounds access. -/
def byteAt (buf : Buf) (i : Nat) : Nat := buf.getD i 0

/-- The error values the module can raise: `TimeoutError` (message),
`InvalidMessageError` (message and the offending response buffer),
`RangeError` (bad port, bad attempt count, or a Node buffer read out of
range) and a stand-in for any other raised error (resolution failure,
programmer error, ...). -/
inductive JSError where
  | timeoutError (message : String)
  | invalidMessageError (message : String) (response : Buf)
  | rangeError (message : String)
  | otherError (tag : Nat)
deriving DecidableEq

/-- `error instanceof SAMPQuery.TimeoutError`. -/
def JSError.isTimeout : JSError → Bool
  | .timeoutError _ => true
  | _ => false

deriving instance DecidableEq for Except

/-- `buf.readUInt8(off)`: Node throws `ERR_OUT_OF_RANGE` unless
`0 ≤ off ≤ buf.length - 1`. -/
def readUInt8 (buf : Buf) (off : Int) : Except JSError Nat :=
  if 0 ≤ off ∧ off + 1 ≤ (buf.length : Int) then .ok (byteAt buf off.toNat)
  else .error (.rangeError "ERR_OUT_OF_RANGE")

/-- `buf.readInt8(off)`: the byte reinterpreted as a signed 8-bit value. -/
def readInt8 (buf : Buf) (off : Int) : Except JSError Int :=
  if 0 ≤ off ∧ off + 1 ≤ (buf.length : Int) then
    .ok (if byteAt buf off.toNat < 128 then (byteAt buf off.toNat : Int)
         else (byteAt buf off.toNat : Int) - 256)
  else .error (.rangeError "ERR_OUT_OF_RANGE")

/-- `buf.readInt16LE(off)`: two little-endian bytes reinterpreted as a
signed 16-bit value. -/
def readInt16LE (buf : Buf) (off : Int) : Except JSError Int :=
  if 0 ≤ off ∧ off + 2 ≤ (buf.length : Int) then
    .ok (let u := byteAt buf off.toNat + 256 * byteAt buf (off.toNat + 1)
         if u < 32768 then (u : Int) else (u : Int) - 65536)
  else .error (.rangeError "ERR_OUT_OF_RANGE")

/-- `buf.readInt32LE(off)`: four little-endian bytes reinterpreted as a
signed 32-bit value. -/
def readInt32LE (buf : Buf) (off : Int) : Except JSError Int :=
  if 0 ≤ off ∧ off + 4 ≤ (buf.length : Int) then
    .ok (let u := byteAt buf off.toNat + 256 * byteAt buf (off.toNat + 1)
           + 65536 * byteAt buf (off.toNat + 2) + 16777216 * byteAt buf (off.toNat + 3)
         if u < 2147483648 then (u : Int) else (u : Int) - 4294967296)
  else .error (.rangeError "ERR_OUT_OF_RANGE")

/-- `buf.readUInt32BE(off)`: four big-endian bytes, unsigned. -/
def readUInt32BE (buf : Buf) (off : Int) : Except JSError Nat :=
  if 0 ≤ off ∧ off + 4 ≤ (buf.length : Int) then
    .ok (16777216 * byteAt buf off.toNat + 65536 * byteAt buf (off.toNat + 1)
           + 256 * byteAt buf (off.toNat + 2) + byteAt buf (off.toNat + 3))
  else .error (.rangeError "ERR_OUT_OF_RANGE")

/-- `buf.toString('latin1', start, stop)`: Node clamps both offsets to the
buffer and returns the bytes between them (empty when `stop ≤ start`);
no error is ever raised. -/
def bufToString (buf : Buf) (start stop : Int) : Buf :=
  (buf.take stop.toNat).drop start.toNat

/-- The two bytes `Buffer.writeUInt16LE` stores (also the layout of every
little-endian 16-bit field of the protocol). -/
def le16 (n : Nat) : Buf := [n % 256, n / 256 % 256]

/-- Four little-endian bytes, the layout of the 32-bit length prefixes. -/
def le32 (n : Nat) : Buf := [n % 256, n / 256 % 256, n / 65536 % 256, n / 16777216 % 256]

/-- The four bytes `Buffer.writeUInt32BE` stores. -/
def be32 (n : Nat) : Buf := [n / 16777216 % 256, n / 65536 % 256, n / 256 % 256, n % 256]

/-- Latin1 bytes of the template string `"SAMP" + "\x00".repeat(6) + opcode`
that `#sendPayload` builds (`opcode` is the latin1 bytes of the opcode
section: one opcode character, plus the four nonce bytes for ping). -/
def payloadTemplate (opcode : Buf) : Buf :=
  [0x53, 0x41, 0x4D, 0x50] ++ [0, 0, 0, 0, 0, 0] ++ opcode

/-- Overwrite `bytes` into `buf` starting at offset `off`, as a Node
`Buffer` write does. -/
def writeBytes (buf : Buf) (off : Nat) (bytes : Buf) : Buf :=
  buf.take off ++ bytes ++ buf.drop (off + bytes.length)

/-- `#sendPayload`'s request datagram: the template buffer, then
`payload.writeUInt32BE(IP.toLong(address), 4)` and
`payload.writeUInt16LE(this.port, 8)` written over the zero padding. -/
def buildPayload (ip : Nat) (port : Nat) (opcode : Buf) : Buf :=
  writeBytes (writeBytes (payloadTemplate opcode) 4 (be32 ip)) 8 (le16 port)

/-- A JS number as the constructor receives the port: either `NaN` or a
(possibly fractional) numeric value. -/
structure JSNum where
  isNaN : Bool
  val : Rat
deriving DecidableEq

/-- JS `<` on numbers: false whenever either operand is `NaN`. -/
def jsLt (a b : JSNum) : Bool := !a.isNaN && !b.isNaN && decide (a.val < b.val)

/-- The constructor's port guard:
`Number.isNaN(port) || port < 1 || port > 65535` throws a `RangeError`. -/
def constructorThrows (port : JSNum) : Bool :=
  port.isNaN || jsLt port ⟨false, 1⟩ || jsLt ⟨false, 65535⟩ port

/-- Per-call query options (`SAMPQuery.QueryOptions`); the attempt count is
modelled as an integer (`Math.trunc` has already been applied by the time
the value is compared, and truncation of an integer is the identity). -/
structure QueryOptions where
  attempts : Option Int := none
  timeout : Option Int := none
deriving DecidableEq

/-- What `#sendPayload`'s socket/timer race yields for one attempt: the
received datagram together with the wall-clock readings taken at send and
at receipt, expiry of the timer (with the elapsed milliseconds it reports),
or any other error raised during the attempt. -/
inductive TransportEvent where
  | datagram (message : Buf) (sendClock recvClock : Int)
  | timerExpired (elapsed : Int)
  | raised (e : JSError)
deriving DecidableEq

/-- `#sendPayload`'s successful result: the response and the elapsed time. -/
structure QueryResponse where
  message : Buf
  time : Int
deriving DecidableEq

/-- `#sendPayload`'s outcome for one attempt: a timer win raises a
`TimeoutError`; a datagram win validates the 4-byte magic header
(`message.readUInt32BE() !== 0x53414d50` raises `InvalidMessageError`) and
returns the message with the elapsed time. -/
def sendPayloadResult (ev : TransportEvent) : Except JSError QueryResponse :=
  match ev with
  | .timerExpired d =>
    .error (.timeoutError ("Query timed out after " ++ toString d ++ "ms"))
  | .raised e => .error e
  | .datagram msg t0 t1 =>
    match readUInt32BE msg 0 with
    | .error e => .error e
    | .ok magic =>
      if magic ≠ 0x53414D50 then
        .error (.invalidMessageError "Invalid header, expected 53414d50" msg)
      else .ok ⟨msg, t1 - t0⟩

/-- Whether an attempt outcome is a timeout failure
(`error instanceof SAMPQuery.TimeoutError` on the caught error). -/
def isTimeoutFailure (r : Except JSError QueryResponse) : Bool :=
  match r with
  | .error e => e.isTimeout
  | .ok _ => false

/-- `#query`'s `while (true)` retry loop.  `events i` is what attempt `i`'s
socket/timer race yields; `attempts` is the validated budget and `remaining`
the loop counter (`if (--remaining <= 0)` exhausts when `remaining ≤ 1`
before the decrement).  Returns the outcome together with the number of
`#sendPayload` attempts made. -/
def queryLoop (events : Nat → TransportEvent) (attempts : Nat) (i remaining : Nat) :
    Except JSError QueryResponse × Nat :=
  match sendPayloadResult (events i) with
  | .ok r => (.ok r, i + 1)
  | .error e =>
    if e.isTimeout then
      if remaining ≤ 1 then
        if 1 < attempts then
          (.error (.timeoutError
            ("Query timed out after " ++ toString attempts ++ " attempts")), i + 1)
        else (.error e, i + 1)
      else queryLoop events attempts (i + 1) (remaining - 1)
    else (.error e, i + 1)
  termination_by remaining
  decreasing_by omega

/-- `#query` after hostname resolution: resolve the attempt budget from the
per-call options or the client default, validate it
(`if (attempts < 1) throw new RangeError(...)`), then run the retry loop.
Returns the outcome and the number of `#sendPayload` attempts made. -/
def queryRun (defAttempts : Int) (options : QueryOptions)
    (events : Nat → TransportEvent) : Except JSError QueryResponse × Nat :=
  let attempts := options.attempts.getD defAttempts
  if attempts < 1 then
    (.error (.rangeError
      ("Expecting attempts to be a positive integer, received " ++ toString attempts)), 0)
  else queryLoop events attempts.toNat 0 attempts.toNat

/-- The data decoded by `getInfo` (protocol strings as latin1 byte lists). -/
structure Info where
  password : Bool
  players : Int
  maxplayers : Int
  servername : Buf
  gamemode : Buf
  language : Buf
deriving DecidableEq

/-- The decoding `getInfo` applies to the raw response message: opcode check
at offset 10, password flag, two signed little-endian 16-bit counts, then
three strings each preceded by a signed little-endian 32-bit length
(`info[index] = message.toString('latin1', offset += 4, offset += length)`). -/
def getInfoDecode (message : Buf) : Except JSError Info := do
  let op ← readUInt8 message 10
  if op ≠ 0x69 then
    throw (.invalidMessageError "Invalid opcode, not an info payload" message)
  let pw ← readInt8 message 11
  let players ← readInt16LE message 12
  let maxplayers ← readInt16LE message 14
  let len1 ← readInt32LE message 16
  let servername := bufToString message 20 (20 + len1)
  let len2 ← readInt32LE message (20 + len1)
  let gamemode := bufToString message (20 + len1 + 4) (20 + len1 + 4 + len2)
  let len3 ← readInt32LE message (20 + len1 + 4 + len2)
  let language := bufToString message (20 + len1 + 4 + len2 + 4) (20 + len1 + 4 + len2 + 4 + len3)
  return ⟨pw != 0, players, maxplayers, servername, gamemode, language⟩

/-- The latin1 bytes of the property name `__proto__`. -/
def protoName : Buf := [0x5F, 0x5F, 0x70, 0x72, 0x6F, 0x74, 0x6F, 0x5F, 0x5F]

/-- Creating or replacing an own property on an insertion-ordered
association list: replace the value in place when the key is present,
append otherwise. -/
def jsSetOwn : List (Buf × Buf) → Buf → Buf → List (Buf × Buf)
  | [], name, value => [(name, value)]
  | (k, v) :: rest, name, value =>
    if k = name then (k, value) :: rest else (k, v) :: jsSetOwn rest name value

/-- JS object assignment `result[name] = value` on a plain object whose own
properties are the pairs of the list.  Assigning through the key
`__proto__` invokes the inherited accessor on `Object.prototype`; with a
string value that accessor creates no own property and changes nothing, so
the assignment is a silent no-op.  Every other key creates or replaces an
own property. -/
def jsSet (acc : List (Buf × Buf)) (name value : Buf) : List (Buf × Buf) :=
  if name = protoName then acc else jsSetOwn acc name value

/-- Own-property lookup on the association list built by `jsSet` — the
decoded mapping as the caller observes it (reading `__proto__` on the real
object yields `Object.prototype` through the inherited accessor, never a
rule value, so no own property ever exists under that key). -/
def jsGet (acc : List (Buf × Buf)) (name : Buf) : Option Buf :=
  match acc with
  | [] => none
  | (k, v) :: rest => if k = name then some v else jsGet rest name

/-- The body of `getRules`'s entry loop: `n` iterations remain, the cursor
is at `offset`, and `acc` is the object built so far.  Each iteration reads
a single-byte length-prefixed name and value and stores `result[name] =
value`. -/
def rulesLoop (message : Buf) :
    Nat → Nat → List (Buf × Buf) → Except JSError (List (Buf × Buf))
  | 0, _, acc => .ok acc
  | n + 1, offset, acc => do
    let len1 ← readUInt8 message offset
    let name := bufToString message (offset + 1) (offset + 1 + len1)
    let len2 ← readUInt8 message (offset + 1 + len1)
    let value := bufToString message (offset + 1 + len1 + 1) (offset + 1 + len1 + 1 + len2)
    rulesLoop message n (offset + 1 + len1 + 1 + len2) (jsSet acc name value)

/-- The decoding `getRules` applies to the raw response message: opcode
check at offset 10, a signed little-endian 16-bit entry count at offset 11
(`for (let i = 0; i < count; i++)` runs `count.toNat` times, zero when the
count is negative), then the entry loop from offset 13. -/
def getRulesDecode (message : Buf) : Except JSError (List (Buf × Buf)) := do
  let op ← readUInt8 message 10
  if op ≠ 0x72 then
    throw (.invalidMessageError "Invalid opcode, not a rules payload" message)
  let count ← readInt16LE message 11
  rulesLoop message count.toNat 13 []

/-- One entry of the client list. -/
structure Client where
  nick : Buf
  score : Int
deriving DecidableEq

/-- The body of `getClientList`'s entry loop: a single-byte
length-prefixed nick, then a signed little-endian 32-bit score. -/
def clientLoop (message : Buf) :
    Nat → Nat → List Client → Except JSError (List Client)
  | 0, _, acc => .ok acc
  | n + 1, offset, acc => do
    let len ← readUInt8 message offset
    let nick := bufToString message (offset + 1) (offset + 1 + len)
    let score ← readInt32LE message (offset + 1 + len)
    clientLoop message n (offset + 1 + len + 4) (acc ++ [⟨nick, score⟩])

/-- The decoding `getClientList` applies to the raw response message. -/
def getClientListDecode (message : Buf) : Except JSError (List Client) := do
  let op ← readUInt8 message 10
  if op ≠ 0x63 then
    throw (.invalidMessageError "Invalid opcode, not a client list payload" message)
  let count ← readInt16LE message 11
  clientLoop message count.toNat 13 []

/-- One entry of the detailed client list. -/
structure DetailedClient where
  id : Nat
  nick : Buf
  score : Int
  ping : Int
deriving DecidableEq

/-- The body of `getDetailedClientList`'s entry loop: a single-byte id, a
single-byte length-prefixed nick, then signed little-endian 32-bit score
and ping. -/
def detailedLoop (message : Buf) :
    Nat → Nat → List DetailedClient → Except JSError (List DetailedClient)
  | 0, _, acc => .ok acc
  | n + 1, offset, acc => do
    let id ← readUInt8 message offset
    let len ← readUInt8 message (offset + 1)
    let nick := bufToString message (offset + 2) (offset + 2 + len)
    let score ← readInt32LE message (offset + 2 + len)
    let ping ← readInt32LE message (offset + 2 + len + 4)
    detailedLoop message n (offset + 2 + len + 8) (acc ++ [⟨id, nick, score, ping⟩])

/-- The decoding `getDetailedClientList` applies to the raw response. -/
def getDetailedClientListDecode (message : Buf) : Except JSError (List DetailedClient) := do
  let op ← readUInt8 message 10
  if op ≠ 0x64 then
    throw (.invalidMessageError "Invalid opcode, not a detailed client list payload" message)
  let count ← readInt16LE message 11
  detailedLoop message count.toNat 13 []

/-- One lowercase hex digit, as `buffer.toString('hex')` prints. -/
def hexDigit (n : Nat) : String :=
  ["0", "1", "2", "3", "4", "5", "6", "7", "8", "9", "a", "b", "c", "d", "e", "f"].getD n "0"

/-- Two lowercase hex digits for one byte. -/
def hexByte (b : Nat) : String := hexDigit (b / 16 % 16) ++ hexDigit (b % 16)

/-- `buffer.toString('hex')`: two lowercase hex digits per byte. -/
def hexOfBuf (buf : Buf) : String := String.join (buf.map hexByte)

/-- `source.compare(target, targetStart)` on Node buffers, lexicographic:
`0` exactly when the byte sequences are equal, otherwise `-1` or `1`. -/
def bufCompare : Buf → Buf → Int
  | [], [] => 0
  | [], _ :: _ => -1
  | _ :: _, [] => 1
  | a :: as, b :: bs => if a < b then -1 else if b < a then 1 else bufCompare as bs

/-- `ping`: runs the query with `{ ...options, attempts: 1 }` (the caller's
attempt count is overridden), checks the opcode byte is `p`, checks the
echoed bytes from offset 11 against the 4-byte nonce that was sent
(`payload.compare(message, 11)` nonzero raises an `InvalidMessageError`
naming both payloads in hex), and returns the elapsed time. -/
def pingRun (defAttempts : Int) (options : QueryOptions) (nonce : Buf)
    (events : Nat → TransportEvent) : Except JSError Int := do
  let resp ← (queryRun defAttempts { options with attempts := some 1 } events).1
  let op ← readUInt8 resp.message 10
  if op ≠ 0x70 then
    throw (.invalidMessageError "Invalid opcode, not a ping payload" resp.message)
  if bufCompare nonce (resp.message.drop 11) ≠ 0 then
    throw (.invalidMessageError
      ("Returned payload " ++ hexOfBuf (resp.message.drop 11)
        ++ " did not match sent payload " ++ hexOfBuf nonce) resp.message)
  return resp.time

/-- A synthetic info response built per the wire format: magic tag, echoed
address/port padding, opcode byte `i` at offset 10, the password flag, two
little-endian 16-bit counts, then three 4-byte-little-endian
length-prefixed strings. -/
def encodeInfo (password : Bool) (players maxplayers : Nat)
    (servername gamemode language : Buf) : Buf :=
  [0x53, 0x41, 0x4D, 0x50] ++ [0, 0, 0, 0, 0, 0] ++ [0x69]
    ++ [if password then 1 else 0]
    ++ le16 players ++ le16 maxplayers
    ++ le32 servername.length ++ servername
    ++ le32 gamemode.length ++ gamemode
    ++ le32 language.length ++ language

/-- The wire bytes of one rules entry: single-byte length-prefixed name,
then single-byte length-prefixed value. -/
def ruleEntryBytes (e : Buf × Buf) : Buf :=
  e.1.length :: (e.1 ++ e.2.length :: e.2)

/-- The concatenated wire bytes of a list of rules entries. -/
def rulesBody : List (Buf × Buf) → Buf
  | [] => []
  | e :: es => ruleEntryBytes e ++ rulesBody es

/-- A synthetic rules response built per the wire format: magic tag,
padding, opcode byte `r` at offset 10, little-endian 16-bit entry count,
then the entries. -/
def encodeRules (entries : List (Buf × Buf)) : Buf :=
  [0x53, 0x41, 0x4D, 0x50, 0, 0, 0, 0, 0, 0, 0x72]
    ++ le16 entries.length ++ rulesBody entries

/-- The object `getRules` builds from a list of name/value entries:
`result[name] = value` in order. -/
def rulesObject (entries : List (Buf × Buf)) : List (Buf × Buf) :=
  entries.foldl (fun acc e => jsSet acc e.1 e.2) []

/-- The value of the last entry carrying `name`, if any. -/
def lastValue (entries : List (Buf × Buf)) (name : Buf) : Option Buf :=
  ((entries.filter fun e => e.1 = name).getLast?).map Prod.snd

/-! ### Lemmas about the retry loop -/

/-- While every attempt seen so far timed out and budget remains, the loop
just advances: skipping `n` timed-out attempts costs `n` budget. -/
theorem queryLoop_skip (events : Nat → TransportEvent) (attempts : Nat) :
    ∀ (n i remaining : Nat),
      (∀ j, j < n → isTimeoutFailure (sendPayloadResult (events (i + j))) = true) →
      n < remaining →
      queryLoop events attempts i remaining
        = queryLoop events attempts (i + n) (remaining - n) := by
  intro n
  induction n with
  | zero => intro i remaining _ _; simp
  | succ n ih =>
    intro i remaining hto hlt
    have h0 := hto 0 (by omega)
    rw [Nat.add_zero] at h0
    rw [queryLoop.eq_def]
    cases hres : sendPayloadResult (events i) with
    | ok resp => rw [hres] at h0; simp [isTimeoutFailure] at h0
    | error e =>
      rw [hres] at h0
      simp only [isTimeoutFailure] at h0
      simp only [h0, if_true]
      rw [if_neg (by omega)]
      have step := ih (i + 1) (remaining - 1)
        (fun j hj => by
          have hj2 := hto (j + 1) (by omega)
          have heq : i + (j + 1) = i + 1 + j := by omega
          rwa [heq] at hj2)
        (by omega)
      have e1 : i + 1 + n = i + (n + 1) := by omega
      have e2 : remaining - 1 - n = remaining - (n + 1) := by omega
      rw [e1, e2] at step
      exact step

/-- The loop always makes the attempt it is at: at least `i + 1` attempts
total when entered at index `i`. -/
theorem queryLoop_made_lb (events : Nat → TransportEvent) (attempts : Nat) :
    ∀ remaining i, i + 1 ≤ (queryLoop events attempts i remaining).2 := by
  intro remaining
  induction remaining using Nat.strong_induction_on with
  | _ remaining ih =>
    intro i
    rw [queryLoop.eq_def]
    cases hres : sendPayloadResult (events i) with
    | ok resp => simp
    | error e =>
      by_cases ht : e.isTimeout = true
      · simp only [ht, if_true]
        by_cases hr : remaining ≤ 1
        · rw [if_pos hr]; split <;> simp
        · rw [if_neg hr]
          have := ih (remaining - 1) (by omega) (i + 1)
          omega
      · simp [ht]

/-- When every attempt times out, the loop exhausts its whole budget and
fails with the aggregate error (budget above one) or the last attempt's own
timeout error (budget exactly one). -/
theorem queryLoop_all_timeout (events : Nat → TransportEvent) (attempts : Nat)
    (elapsed : Nat → Int) (hev : ∀ i, events i = .timerExpired (elapsed i)) :
    ∀ remaining i, 1 ≤ remaining →
      queryLoop events attempts i remaining
        = (.error (if 1 < attempts then
              .timeoutError ("Query timed out after " ++ toString attempts ++ " attempts")
            else
              .timeoutError ("Query timed out after "
                ++ toString (elapsed (i + remaining - 1)) ++ "ms")),
           i + remaining) := by
  intro remaining
  induction remaining using Nat.strong_induction_on with
  | _ remaining ih =>
    intro i h1
    rw [queryLoop.eq_def, hev i]
    simp only [sendPayloadResult, JSError.isTimeout, if_true]
    by_cases hr : remaining ≤ 1
    · have h1' : remaining = 1 := by omega
      subst h1'
      rw [if_pos hr]
      split <;> simp
    · rw [if_neg hr]
      rw [ih (remaining - 1) (by omega) (i + 1) (by omega)]
      have e1 : i + 1 + (remaining - 1) - 1 = i + remaining - 1 := by omega
      have e2 : i + 1 + (remaining - 1) = i + remaining := by omega
      rw [e1, e2]

/-! ### Lemmas about buffer reads at known positions -/

theorem le16_length (n : Nat) : (le16 n).length = 2 := rfl

theorem le32_length (n : Nat) : (le32 n).length = 4 := rfl

theorem byteAt_append (a b : Buf) (i : Nat) : byteAt (a ++ b) (a.length + i) = byteAt b i := by
  unfold byteAt
  rw [List.getD_append_right a b 0 (a.length + i) (by omega)]
  simp

theorem exceptBindOk {α β : Type} (a : α) (f : α → Except JSError β) :
    (Except.ok a : Except JSError α) >>= f = f a := rfl

theorem exceptBindError {α β : Type} (e : JSError) (f : α → Except JSError β) :
    (Except.error e : Except JSError α) >>= f = .error e := rfl

theorem exceptPure {α : Type} (a : α) : (pure a : Except JSError α) = .ok a := rfl

theorem exceptThrow {α : Type} (e : JSError) : (throw e : Except JSError α) = .error e := rfl

theorem exceptMapOk {α β : Type} (f : α → β) (a : α) :
    f <$> (Except.ok a : Except JSError α) = .ok (f a) := rfl

theorem exceptMapError {α β : Type} (f : α → β) (e : JSError) :
    f <$> (Except.error e : Except JSError α) = .error e := rfl

theorem readUInt8_at (buf pre post : Buf) (b : Nat) (off : Int)
    (hbuf : buf = pre ++ b :: post) (hoff : off = pre.length) :
    readUInt8 buf off = .ok b := by
  subst hbuf hoff
  unfold readUInt8
  rw [if_pos (by simp <;> omega)]
  have h0 : byteAt (pre ++ b :: post) (pre.length + 0) = byteAt (b :: post) 0 :=
    byteAt_append pre (b :: post) 0
  simp only [Nat.add_zero] at h0
  simp only [Int.toNat_natCast]
  rw [h0]
  simp [byteAt]

theorem readInt8_at (buf pre post : Buf) (b : Nat) (off : Int)
    (hbuf : buf = pre ++ b :: post) (hoff : off = pre.length) (hb : b < 128) :
    readInt8 buf off = .ok (b : Int) := by
  subst hbuf hoff
  unfold readInt8
  rw [if_pos (by simp <;> omega)]
  have h0 : byteAt (pre ++ b :: post) (pre.length + 0) = byteAt (b :: post) 0 :=
    byteAt_append pre (b :: post) 0
  simp only [Nat.add_zero] at h0
  simp only [Int.toNat_natCast]
  rw [h0]
  simp only [byteAt, List.getD_cons_zero]
  rw [if_pos hb]

theorem readInt16LE_at (buf pre post : Buf) (n : Nat) (off : Int)
    (hbuf : buf = pre ++ (le16 n ++ post)) (hoff : off = pre.length) (hn : n < 32768) :
    readInt16LE buf off = .ok (n : Int) := by
  subst hbuf hoff
  unfold readInt16LE
  rw [if_pos (by simp [le16] <;> omega)]
  have h0 : byteAt (pre ++ (le16 n ++ post)) (pre.length + 0) = byteAt (le16 n ++ post) 0 :=
    byteAt_append _ _ 0
  have h1 : byteAt (pre ++ (le16 n ++ post)) (pre.length + 1) = byteAt (le16 n ++ post) 1 :=
    byteAt_append _ _ 1
  simp only [Nat.add_zero] at h0
  simp only [Int.toNat_natCast, h0, h1]
  simp only [le16, byteAt, List.getD_cons_zero, List.getD_cons_succ, List.cons_append,
    List.nil_append]
  rw [if_pos (by omega)]
  congr 1
  omega

theorem readInt32LE_at (buf pre post : Buf) (n : Nat) (off : Int)
    (hbuf : buf = pre ++ (le32 n ++ post)) (hoff : off = pre.length) (hn : n < 2147483648) :
    readInt32LE buf off = .ok (n : Int) := by
  subst hbuf hoff
  unfold readInt32LE
  rw [if_pos (by simp [le32] <;> omega)]
  have h0 : byteAt (pre ++ (le32 n ++ post)) (pre.length + 0) = byteAt (le32 n ++ post) 0 :=
    byteAt_append _ _ 0
  have h1 : byteAt (pre ++ (le32 n ++ post)) (pre.length + 1) = byteAt (le32 n ++ post) 1 :=
    byteAt_append _ _ 1
  have h2 : byteAt (pre ++ (le32 n ++ post)) (pre.length + 2) = byteAt (le32 n ++ post) 2 :=
    byteAt_append _ _ 2
  have h3 : byteAt (pre ++ (le32 n ++ post)) (pre.length + 3) = byteAt (le32 n ++ post) 3 :=
    byteAt_append _ _ 3
  simp only [Nat.add_zero] at h0
  simp only [Int.toNat_natCast, h0, h1, h2, h3]
  simp only [le32, byteAt, List.getD_cons_zero, List.getD_cons_succ, List.cons_append,
    List.nil_append]
  rw [if_pos (by omega)]
  congr 1
  omega

theorem bufToString_at (buf pre s post : Buf) (start stop : Int)
    (hbuf : buf = pre ++ (s ++ post)) (hstart : start = pre.length)
    (hstop : stop = pre.length + s.length) :
    bufToString buf start stop = s := by
  subst hbuf hstart hstop
  unfold bufToString
  have h1 : ((pre.length : Int) + (s.length : Int)).toNat = pre.length + s.length := by omega
  rw [h1, Int.toNat_natCast, ← List.append_assoc]
  rw [List.take_left' (by simp), List.drop_left]

theorem bufToString_clamp_at (buf pre tail : Buf) (L : Nat) (start stop : Int)
    (hbuf : buf = pre ++ tail) (hstart : start = pre.length)
    (hstop : stop = pre.length + L) (hL : tail.length ≤ L) :
    bufToString buf start stop = tail := by
  subst hbuf hstart hstop
  unfold bufToString
  have h1 : ((pre.length : Int) + (L : Int)).toNat = pre.length + L := by omega
  rw [h1, Int.toNat_natCast]
  rw [List.take_of_length_le (by simp; omega), List.drop_left]

/-- `jsSetOwn` then `jsGet`: lookup after an own-property write. -/
theorem jsGet_jsSetOwn (acc : List (Buf × Buf)) (n v m : Buf) :
    jsGet (jsSetOwn acc n v) m = if m = n then some v else jsGet acc m := by
  induction acc with
  | nil =>
    by_cases hm : m = n
    · simp [jsSetOwn, jsGet, hm]
    · simp [jsSetOwn, jsGet, hm, Ne.symm hm]
  | cons kv rest ih =>
    rcases kv with ⟨k, v0⟩
    by_cases hk : k = n
    · subst hk
      by_cases hm : m = k
      · simp [jsSetOwn, jsGet, hm]
      · simp [jsSetOwn, jsGet, hm, Ne.symm hm]
    · by_cases hm : m = k
      · subst hm
        simp [jsSetOwn, jsGet, hk, Ne.symm hk, ih]
      · simp [jsSetOwn, jsGet, hk, hm, Ne.symm hm, ih]

/-- `jsSet` then `jsGet`: an assignment through `__proto__` changes no own
property; any other assignment behaves as an own-property write. -/
theorem jsGet_jsSet (acc : List (Buf × Buf)) (n v m : Buf) :
    jsGet (jsSet acc n v) m
      = if n = protoName then jsGet acc m
        else if m = n then some v else jsGet acc m := by
  unfold jsSet
  by_cases hp : n = protoName
  · simp [hp]
  · simp [hp, jsGet_jsSetOwn]

/-- An own-property write grows the object by at most one key. -/
theorem jsSetOwn_length_le (acc : List (Buf × Buf)) (n v : Buf) :
    (jsSetOwn acc n v).length ≤ acc.length + 1 := by
  induction acc with
  | nil => simp [jsSetOwn]
  | cons kv rest ih =>
    rcases kv with ⟨k, v0⟩
    by_cases hk : k = n <;> simp [jsSetOwn, hk] <;> omega

/-- An assignment grows the object by at most one key. -/
theorem jsSet_length_le (acc : List (Buf × Buf)) (n v : Buf) :
    (jsSet acc n v).length ≤ acc.length + 1 := by
  unfold jsSet
  by_cases hp : n = protoName
  · rw [if_pos hp]; omega
  · rw [if_neg hp]; exact jsSetOwn_length_le acc n v

/-- `rulesObject` over a snoc processes the last entry last. -/
theorem rulesObject_concat (entries : List (Buf × Buf)) (e : Buf × Buf) :
    rulesObject (entries ++ [e]) = jsSet (rulesObject entries) e.1 e.2 := by
  simp [rulesObject, List.foldl_append]

/-- The object has at most one key per entry. -/
theorem rulesObject_length_le (entries : List (Buf × Buf)) :
    (rulesObject entries).length ≤ entries.length := by
  induction entries using List.reverseRecOn with
  | nil => simp [rulesObject]
  | append_singleton es e ih =>
    rw [rulesObject_concat]
    have h := jsSet_length_le (rulesObject es) e.1 e.2
    simp only [List.length_append, List.length_cons, List.length_nil]
    omega

/-- Lookup of any name other than `__proto__` in the built object returns
that name's last occurrence. -/
theorem jsGet_rulesObject_last (entries : List (Buf × Buf)) (name : Buf)
    (hname : name ≠ protoName) (hmem : name ∈ entries.map Prod.fst) :
    jsGet (rulesObject entries) name = lastValue entries name := by
  induction entries using List.reverseRecOn with
  | nil => simp at hmem
  | append_singleton es e ih =>
    rw [rulesObject_concat, jsGet_jsSet]
    by_cases hp : e.1 = protoName
    · rw [if_pos hp]
      have hne : name ≠ e.1 := by rw [hp]; exact hname
      have hmem' : name ∈ es.map Prod.fst := by
        simp only [List.map_append, List.mem_append] at hmem
        rcases hmem with h | h
        · exact h
        · simp at h; exact absurd h hne
      rw [ih hmem']
      unfold lastValue
      rw [List.filter_append]
      have : List.filter (fun x => decide (x.1 = name)) [e] = [] := by
        simp [List.filter, Ne.symm hne]
      rw [this, List.append_nil]
    · rw [if_neg hp]
      by_cases he : name = e.1
      · rw [if_pos he]
        unfold lastValue
        rw [List.filter_append]
        have : List.filter (fun x => decide (x.1 = name)) [e] = [e] := by
          simp [List.filter, he.symm]
        rw [this, List.getLast?_concat]
        simp
      · rw [if_neg he]
        have hmem' : name ∈ es.map Prod.fst := by
          simp only [List.map_append, List.mem_append] at hmem
          rcases hmem with h | h
          · exact h
          · simp at h; exact absurd h he
        rw [ih hmem']
        unfold lastValue
        rw [List.filter_append]
        have : List.filter (fun x => decide (x.1 = name)) [e] = [] := by
          simp [List.filter, Ne.symm he]
        rw [this, List.append_nil]

/-- No assignment ever creates an own property named `__proto__`. -/
theorem jsGet_rulesObject_proto (entries : List (Buf × Buf)) :
    jsGet (rulesObject entries) protoName = none := by
  induction entries using List.reverseRecOn with
  | nil => simp [rulesObject, jsGet]
  | append_singleton es e ih =>
    rw [rulesObject_concat, jsGet_jsSet]
    by_cases hp : e.1 = protoName
    · rw [if_pos hp]; exact ih
    · rw [if_neg hp, if_neg (Ne.symm hp)]; exact ih

/-- Decoding the encoded entries from any prefix position folds the
entries into the accumulator with JS assignment semantics. -/
theorem rulesLoop_encode :
    ∀ (entries : List (Buf × Buf)) (pre : Buf) (acc : List (Buf × Buf)),
      rulesLoop (pre ++ rulesBody entries) entries.length pre.length acc
        = .ok (entries.foldl (fun a e => jsSet a e.1 e.2) acc) := by
  intro entries
  induction entries with
  | nil => intro pre acc; simp [rulesBody, rulesLoop]
  | cons e es ih =>
    intro pre acc
    have hB : pre ++ rulesBody (e :: es)
        = pre ++ e.1.length :: (e.1 ++ e.2.length :: (e.2 ++ rulesBody es)) := by
      simp [rulesBody, ruleEntryBytes]
    simp only [List.length_cons, rulesLoop]
    rw [readUInt8_at (pre ++ rulesBody (e :: es)) pre
      (e.1 ++ e.2.length :: (e.2 ++ rulesBody es)) e.1.length (pre.length : Int)
      hB rfl]
    simp only [exceptBindOk]
    rw [bufToString_at (pre ++ rulesBody (e :: es)) (pre ++ [e.1.length]) e.1
      (e.2.length :: (e.2 ++ rulesBody es)) ((pre.length : Int) + 1)
      ((pre.length : Int) + 1 + (e.1.length : Int))
      (by rw [hB]; simp) (by simp) (by simp <;> push_cast <;> ring)]
    rw [readUInt8_at (pre ++ rulesBody (e :: es)) (pre ++ e.1.length :: e.1)
      (e.2 ++ rulesBody es) e.2.length ((pre.length : Int) + 1 + (e.1.length : Int))
      (by rw [hB]; simp) (by simp <;> push_cast <;> ring)]
    simp only [exceptBindOk]
    rw [bufToString_at (pre ++ rulesBody (e :: es)) (pre ++ e.1.length :: e.1 ++ [e.2.length])
      e.2 (rulesBody es) ((pre.length : Int) + 1 + (e.1.length : Int) + 1)
      ((pre.length : Int) + 1 + (e.1.length : Int) + 1 + (e.2.length : Int))
      (by rw [hB]; simp) (by simp <;> push_cast <;> ring)
      (by simp <;> push_cast <;> ring)]
    have hre : pre ++ rulesBody (e :: es) = (pre ++ ruleEntryBytes e) ++ rulesBody es := by
      simp [rulesBody]
    have hoff : pre.length + 1 + e.1.length + 1 + e.2.length
        = (pre ++ ruleEntryBytes e).length := by
      simp [ruleEntryBytes]
      omega
    rw [hre, hoff, ih (pre ++ ruleEntryBytes e) (jsSet acc e.1 e.2)]
    simp

/-- An in-bounds `readUInt8` returns the byte. -/
theorem readUInt8_eval (buf : Buf) (off : Int) (h0 : 0 ≤ off)
    (h1 : off + 1 ≤ (buf.length : Int)) :
    readUInt8 buf off = .ok (byteAt buf off.toNat) := by
  unfold readUInt8
  rw [if_pos ⟨h0, h1⟩]

/-- An in-bounds `readInt16LE` returns the sign-adjusted value. -/
theorem readInt16LE_eval (buf : Buf) (off : Int) (h0 : 0 ≤ off)
    (h1 : off + 2 ≤ (buf.length : Int)) :
    readInt16LE buf off
      = .ok (if byteAt buf off.toNat + 256 * byteAt buf (off.toNat + 1) < 32768
          then ((byteAt buf off.toNat + 256 * byteAt buf (off.toNat + 1) : Nat) : Int)
          else ((byteAt buf off.toNat + 256 * byteAt buf (off.toNat + 1) : Nat) : Int) - 65536) := by
  unfold readInt16LE
  rw [if_pos ⟨h0, h1⟩]

/-- With `attempts: 1` forced, the query is exactly one attempt. -/
theorem queryRun_attempts_one (defAttempts : Int) (options : QueryOptions)
    (events : Nat → TransportEvent) :
    queryRun defAttempts { options with attempts := some 1 } events
      = (sendPayloadResult (events 0), 1) := by
  rcases options with ⟨att, tim⟩
  simp only [queryRun, Option.getD]
  rw [if_neg (by omega)]
  rw [queryLoop.eq_def]
  cases hres : sendPayloadResult (events 0) with
  | ok r => simp
  | error e =>
    by_cases ht : e.isTimeout = true <;> simp [ht]

/-- `Buffer.compare` returns 0 exactly on equal byte sequences. -/
theorem bufCompare_eq_zero : ∀ a b : Buf, bufCompare a b = 0 ↔ a = b
  | [], [] => by simp [bufCompare]
  | [], x :: xs => by simp [bufCompare]
  | x :: xs, [] => by simp [bufCompare]
  | a :: as, b :: bs => by
    simp only [bufCompare, List.cons.injEq]
    rcases Nat.lt_trichotomy a b with h | h | h
    · rw [if_pos h]
      constructor
      · intro hc; omega
      · rintro ⟨h1, _⟩; omega
    · subst h
      rw [if_neg (by omega), if_neg (by omega)]
      rw [bufCompare_eq_zero as bs]
      simp
    · rw [if_neg (by omega), if_pos h]
      constructor
      · intro hc; omega
      · rintro ⟨h1, _⟩; omega

/-- A datagram with a valid magic header yields the response. -/
theorem sendPayloadResult_datagram_ok (m : Buf) (t0 t1 : Int)
    (hmagic : readUInt32BE m 0 = .ok 0x53414D50) :
    sendPayloadResult (.datagram m t0 t1) = .ok ⟨m, t1 - t0⟩ := by
  simp only [sendPayloadResult]
  rw [hmagic]
  rfl

/-- A successful attempt can only come from a datagram with the elapsed
time being the difference of the clock readings. -/
theorem sendPayloadResult_ok_inv (ev : TransportEvent) (resp : QueryResponse)
    (h : sendPayloadResult ev = .ok resp) :
    ∃ m t0 t1, ev = .datagram m t0 t1 ∧ resp = ⟨m, t1 - t0⟩ := by
  cases ev with
  | datagram m t0 t1 =>
    refine ⟨m, t0, t1, rfl, ?_⟩
    simp only [sendPayloadResult] at h
    split at h
    · cases h
    · split at h
      · cases h
      · cases h; rfl
  | timerExpired d => simp [sendPayloadResult] at h
  | raised e => simp [sendPayloadResult] at h

/-! ### Claim theorems -/

/-- Claim C1: the retry loop retries only timeout failures.  If the first
`i` attempts all failed with timeouts and attempt `i` is within the budget
but fails with a non-timeout error `e`, then the query propagates exactly
`e` having made exactly `i + 1` attempts (no attempt follows the failure);
and if attempt `i` also timed out while budget remains, a further attempt
is made. -/
theorem retry_only_timeout (defAttempts : Int) (options : QueryOptions)
    (events : Nat → TransportEvent) (i : Nat) :
    (∀ e : JSError,
      (∀ j, j < i → isTimeoutFailure (sendPayloadResult (events j)) = true) →
      (i : Int) < options.attempts.getD defAttempts →
      sendPayloadResult (events i) = .error e → e.isTimeout = false →
      queryRun defAttempts options events = (.error e, i + 1))
    ∧ ((∀ j, j ≤ i → isTimeoutFailure (sendPayloadResult (events j)) = true) →
      (i : Int) + 1 < options.attempts.getD defAttempts →
      i + 1 < (queryRun defAttempts options events).2) := by
  constructor
  · intro e hto hlt hres hnt
    simp only [queryRun]
    rw [if_neg (by omega)]
    have hskip := queryLoop_skip events (options.attempts.getD defAttempts).toNat i 0
      (options.attempts.getD defAttempts).toNat
      (fun j hj => by simpa using hto j hj) (by omega)
    rw [Nat.zero_add] at hskip
    rw [hskip, queryLoop.eq_def, hres]
    simp [hnt]
  · intro hto hlt
    simp only [queryRun]
    rw [if_neg (by omega)]
    have hskip := queryLoop_skip events (options.attempts.getD defAttempts).toNat (i + 1) 0
      (options.attempts.getD defAttempts).toNat
      (fun j hj => by simpa using hto j (by omega)) (by omega)
    rw [Nat.zero_add] at hskip
    rw [hskip]
    have := queryLoop_made_lb events (options.attempts.getD defAttempts).toNat
      ((options.attempts.getD defAttempts).toNat - (i + 1)) (i + 1)
    omega

/-- Claim C1 at a concrete input: one timeout, then a non-timeout error
within a budget of 3 — the error propagates after exactly two attempts. -/
theorem retry_only_timeout_witness :
    queryRun 3 {}
        (fun j => if j = 0 then .timerExpired 5 else .raised (.otherError 9))
      = (.error (.otherError 9), 2) :=
  (retry_only_timeout 3 {}
      (fun j => if j = 0 then .timerExpired 5 else .raised (.otherError 9)) 1).1
    (.otherError 9) (by decide) (by decide) rfl rfl

/-- Claim C2: when every attempt times out, a resolved budget of 1 fails
with the single underlying per-attempt timeout error, and a budget above 1
fails with the aggregate timeout error reporting the attempt count; the
whole budget is consumed either way. -/
theorem timeout_exhaustion_error_shape (defAttempts : Int) (options : QueryOptions)
    (events : Nat → TransportEvent) (elapsed : Nat → Int)
    (hev : ∀ i, events i = .timerExpired (elapsed i))
    (hA : 1 ≤ options.attempts.getD defAttempts) :
    (options.attempts.getD defAttempts = 1 →
      queryRun defAttempts options events
        = (.error (.timeoutError
            ("Query timed out after " ++ toString (elapsed 0) ++ "ms")), 1))
    ∧ (1 < options.attempts.getD defAttempts →
      queryRun defAttempts options events
        = (.error (.timeoutError ("Query timed out after "
            ++ toString (options.attempts.getD defAttempts).toNat ++ " attempts")),
          (options.attempts.getD defAttempts).toNat)) := by
  constructor
  · intro h1
    simp only [queryRun]
    rw [if_neg (by omega), h1]
    have := queryLoop_all_timeout events (1 : Int).toNat elapsed hev (1 : Int).toNat 0
      (by omega)
    simpa using this
  · intro h1
    simp only [queryRun]
    rw [if_neg (by omega)]
    have := queryLoop_all_timeout events (options.attempts.getD defAttempts).toNat
      elapsed hev (options.attempts.getD defAttempts).toNat 0 (by omega)
    rw [this, if_pos (by omega)]
    simp

/-- Claim C2 at concrete inputs: budget 1 yields the per-attempt error,
budget 3 yields the aggregate error after 3 attempts. -/
theorem timeout_exhaustion_error_shape_witness :
    queryRun 1 {} (fun _ => .timerExpired 7)
        = (.error (.timeoutError "Query timed out after 7ms"), 1)
    ∧ queryRun 3 {} (fun _ => .timerExpired 7)
        = (.error (.timeoutError "Query timed out after 3 attempts"), 3) :=
  ⟨(timeout_exhaustion_error_shape 1 {} (fun _ => .timerExpired 7) (fun _ => 7)
      (fun _ => rfl) (by decide)).1 (by decide),
   (timeout_exhaustion_error_shape 3 {} (fun _ => .timerExpired 7) (fun _ => 7)
      (fun _ => rfl) (by decide)).2 (by decide)⟩

/-- Claim C9: a non-positive resolved attempt count fails immediately with
the `RangeError`, with zero `#sendPayload` attempts made. -/
theorem nonpositive_attempts_rejected (defAttempts : Int) (options : QueryOptions)
    (events : Nat → TransportEvent)
    (h : options.attempts.getD defAttempts ≤ 0) :
    queryRun defAttempts options events
      = (.error (.rangeError ("Expecting attempts to be a positive integer, received "
          ++ toString (options.attempts.getD defAttempts))), 0) := by
  simp only [queryRun]
  rw [if_pos (by omega)]

/-- Claim C9 at a concrete input: a default attempt count of 0 is rejected
before any attempt. -/
theorem nonpositive_attempts_rejected_witness :
    queryRun 0 {} (fun _ => .timerExpired 1)
      = (.error (.rangeError "Expecting attempts to be a positive integer, received 0"), 0) :=
  nonpositive_attempts_rejected 0 {} (fun _ => .timerExpired 1) (by decide)

/-- Claim C3 (amended): building a synthetic info response per the wire
format and decoding it with `getInfoDecode` round-trips exactly, provided
the counts fit a signed 16-bit read (below 32768) and each string length
fits a signed 32-bit read. -/
theorem info_roundtrip_amended (password : Bool) (players maxplayers : Nat)
    (s g l : Buf) (hp : players < 32768) (hm : maxplayers < 32768)
    (hs : s.length < 2147483648) (hg : g.length < 2147483648)
    (hl : l.length < 2147483648) :
    getInfoDecode (encodeInfo password players maxplayers s g l)
      = .ok ⟨password, players, maxplayers, s, g, l⟩ := by
  set B := encodeInfo password players maxplayers s g l with hB
  rw [getInfoDecode]
  rw [readUInt8_at B [0x53, 0x41, 0x4D, 0x50, 0, 0, 0, 0, 0, 0]
    ((if password then 1 else 0) :: (le16 players ++ le16 maxplayers
      ++ le32 s.length ++ s ++ le32 g.length ++ g ++ le32 l.length ++ l)) 0x69 10
    (by rw [hB]; simp [encodeInfo]) (by simp)]
  simp only [exceptBindOk]
  rw [if_neg (fun hcontra => hcontra rfl)]
  simp only [exceptPure, exceptBindOk]
  rw [readInt8_at B [0x53, 0x41, 0x4D, 0x50, 0, 0, 0, 0, 0, 0, 0x69]
    (le16 players ++ le16 maxplayers ++ le32 s.length ++ s ++ le32 g.length ++ g
      ++ le32 l.length ++ l) (if password then 1 else 0) 11
    (by rw [hB]; simp [encodeInfo]) (by simp) (by cases password <;> decide)]
  simp only [exceptBindOk]
  rw [readInt16LE_at B
    [0x53, 0x41, 0x4D, 0x50, 0, 0, 0, 0, 0, 0, 0x69, (if password then 1 else 0)]
    (le16 maxplayers ++ le32 s.length ++ s ++ le32 g.length ++ g ++ le32 l.length ++ l)
    players 12
    (by rw [hB]; simp [encodeInfo]) (by simp) hp]
  simp only [exceptBindOk]
  rw [readInt16LE_at B
    ([0x53, 0x41, 0x4D, 0x50, 0, 0, 0, 0, 0, 0, 0x69, (if password then 1 else 0)]
      ++ le16 players)
    (le32 s.length ++ s ++ le32 g.length ++ g ++ le32 l.length ++ l) maxplayers 14
    (by rw [hB]; simp [encodeInfo]) (by simp [le16_length]) hm]
  simp only [exceptBindOk]
  rw [readInt32LE_at B
    ([0x53, 0x41, 0x4D, 0x50, 0, 0, 0, 0, 0, 0, 0x69, (if password then 1 else 0)]
      ++ le16 players ++ le16 maxplayers)
    (s ++ le32 g.length ++ g ++ le32 l.length ++ l) s.length 16
    (by rw [hB]; simp [encodeInfo]) (by simp [le16_length]) hs]
  simp only [exceptBindOk]
  rw [readInt32LE_at B
    ([0x53, 0x41, 0x4D, 0x50, 0, 0, 0, 0, 0, 0, 0x69, (if password then 1 else 0)]
      ++ le16 players ++ le16 maxplayers ++ le32 s.length ++ s)
    (g ++ le32 l.length ++ l) g.length (20 + (s.length : Int))
    (by rw [hB]; simp [encodeInfo])
    (by simp [List.length_append, le16_length, le32_length] <;> push_cast <;> ring) hg]
  simp only [exceptBindOk]
  rw [readInt32LE_at B
    ([0x53, 0x41, 0x4D, 0x50, 0, 0, 0, 0, 0, 0, 0x69, (if password then 1 else 0)]
      ++ le16 players ++ le16 maxplayers ++ le32 s.length ++ s ++ le32 g.length ++ g)
    l l.length (20 + (s.length : Int) + 4 + (g.length : Int))
    (by rw [hB]; simp [encodeInfo])
    (by simp [List.length_append, le16_length, le32_length] <;> push_cast <;> ring) hl]
  simp only [exceptBindOk]
  rw [bufToString_at B
    ([0x53, 0x41, 0x4D, 0x50, 0, 0, 0, 0, 0, 0, 0x69, (if password then 1 else 0)]
      ++ le16 players ++ le16 maxplayers ++ le32 s.length)
    s (le32 g.length ++ g ++ le32 l.length ++ l) 20 (20 + (s.length : Int))
    (by rw [hB]; simp [encodeInfo]) (by simp [le16_length, le32_length])
    (by simp [List.length_append, le16_length, le32_length] <;> push_cast <;> ring)]
  rw [bufToString_at B
    ([0x53, 0x41, 0x4D, 0x50, 0, 0, 0, 0, 0, 0, 0x69, (if password then 1 else 0)]
      ++ le16 players ++ le16 maxplayers ++ le32 s.length ++ s ++ le32 g.length)
    g (le32 l.length ++ l) (20 + (s.length : Int) + 4)
      (20 + (s.length : Int) + 4 + (g.length : Int))
    (by rw [hB]; simp [encodeInfo])
    (by simp [List.length_append, le16_length, le32_length] <;> push_cast <;> ring)
    (by simp [List.length_append, le16_length, le32_length] <;> push_cast <;> ring)]
  rw [bufToString_at B
    ([0x53, 0x41, 0x4D, 0x50, 0, 0, 0, 0, 0, 0, 0x69, (if password then 1 else 0)]
      ++ le16 players ++ le16 maxplayers ++ le32 s.length ++ s ++ le32 g.length ++ g
      ++ le32 l.length)
    l [] (20 + (s.length : Int) + 4 + (g.length : Int) + 4)
      (20 + (s.length : Int) + 4 + (g.length : Int) + 4 + (l.length : Int))
    (by rw [hB]; simp [encodeInfo])
    (by simp [List.length_append, le16_length, le32_length] <;> push_cast <;> ring)
    (by simp [List.length_append, le16_length, le32_length] <;> push_cast <;> ring)]
  cases password <;> simp

/-- Claim C3 (counterexample): at players = 32768 the synthetic buffer
built per the wire format decodes to players = -32768 (the count is read
as a signed 16-bit value), so the round trip fails as universally stated. -/
theorem info_roundtrip_counterexample :
    getInfoDecode (encodeInfo false 32768 0 [] [] [])
        = .ok ⟨false, -32768, 0, [], [], []⟩
    ∧ getInfoDecode (encodeInfo false 32768 0 [] [] [])
        ≠ .ok ⟨false, 32768, 0, [], [], []⟩ := ⟨by decide, by decide⟩

/-- Claim C3 (amended, witness): the round trip at the concrete values the
spec gives (password, 12/32 players, "Test"/"DM"/"EN"). -/
theorem info_roundtrip_amended_witness :
    getInfoDecode (encodeInfo true 12 32 [84, 101, 115, 116] [68, 77] [69, 78])
      = .ok ⟨true, 12, 32, [84, 101, 115, 116], [68, 77], [69, 78]⟩ :=
  info_roundtrip_amended true 12 32 [84, 101, 115, 116] [68, 77] [69, 78]
    (by decide) (by decide) (by decide) (by decide) (by decide)

/-- Claim C4: the request datagram is exactly the magic tag, the
big-endian address over the padding, the little-endian port and the opcode
section; for the ping opcode, bytes 11 and on are the nonce. -/
theorem request_datagram_layout (ip port : Nat) (opcode : Buf)
    (hip : ip < 4294967296) (hport1 : 1 ≤ port) (hport2 : port ≤ 65535) :
    buildPayload ip port opcode
      = [0x53, 0x41, 0x4D, 0x50] ++ be32 ip ++ le16 port ++ opcode
    ∧ (∀ nonce : Buf, nonce.length = 4 → opcode = 0x70 :: nonce →
        byteAt (buildPayload ip port opcode) 10 = 0x70
        ∧ (buildPayload ip port opcode).drop 11 = nonce) := by
  refine ⟨rfl, ?_⟩
  rintro nonce hlen rfl
  exact ⟨rfl, rfl⟩

/-- Claim C4 at a concrete input: 127.0.0.1:7777 with a ping opcode. -/
theorem request_datagram_layout_witness :
    buildPayload 2130706433 7777 [0x70, 1, 2, 3, 4]
      = [0x53, 0x41, 0x4D, 0x50] ++ be32 2130706433 ++ le16 7777 ++ [0x70, 1, 2, 3, 4] :=
  (request_datagram_layout 2130706433 7777 [0x70, 1, 2, 3, 4]
    (by decide) (by decide) (by decide)).1

/-- Claim C5: ping forces the attempt count to 1 (exactly one attempt is
made whatever the caller asked); a successful ping returns the elapsed
time, non-negative whenever the clock did not go backwards; and a ping
response whose 4 bytes after the opcode differ from the sent nonce fails
with the `InvalidMessageError` naming both payloads in hex. -/
theorem ping_contract (defAttempts : Int) (options : QueryOptions) (nonce : Buf)
    (events : Nat → TransportEvent) :
    (queryRun defAttempts { options with attempts := some 1 } events).2 = 1
    ∧ ((∀ m t0 t1, events 0 = .datagram m t0 t1 → t0 ≤ t1) →
        ∀ t, pingRun defAttempts options nonce events = .ok t → 0 ≤ t)
    ∧ (∀ m t0 t1, events 0 = .datagram m t0 t1 →
        readUInt32BE m 0 = .ok 0x53414D50 → byteAt m 10 = 0x70 → 11 ≤ m.length →
        nonce.length = 4 → (m.drop 11).take 4 ≠ nonce →
        pingRun defAttempts options nonce events
          = .error (.invalidMessageError
              ("Returned payload " ++ hexOfBuf (m.drop 11)
                ++ " did not match sent payload " ++ hexOfBuf nonce) m)) := by
  have hq := queryRun_attempts_one defAttempts options events
  refine ⟨by rw [hq], ?_, ?_⟩
  · intro hmono t hok
    rw [pingRun, hq] at hok
    simp only [exceptBindOk] at hok
    cases hsp : sendPayloadResult (events 0) with
    | error e =>
      rw [hsp] at hok
      simp [exceptBindError] at hok
    | ok resp =>
      rw [hsp] at hok
      simp only [exceptBindOk] at hok
      obtain ⟨m, t0, t1, hev, hresp⟩ := sendPayloadResult_ok_inv _ _ hsp
      cases hop : readUInt8 resp.message 10 with
      | error e =>
        rw [hop] at hok
        simp [exceptBindError] at hok
      | ok op =>
        rw [hop] at hok
        simp only [exceptBindOk] at hok
        by_cases ho : op ≠ 0x70
        · rw [if_pos ho] at hok
          simp [exceptThrow, exceptBindError] at hok
        · rw [if_neg ho] at hok
          simp only [exceptPure, exceptBindOk] at hok
          by_cases hc : bufCompare nonce (resp.message.drop 11) ≠ 0
          · rw [if_pos hc] at hok
            simp [exceptThrow, exceptBindError] at hok
          · rw [if_neg hc] at hok
            cases hok
            have hmt := hmono m t0 t1 hev
            have : resp.time = t1 - t0 := by rw [hresp]
            omega
  · intro m t0 t1 hev hmagic hop hlen hnlen hneq
    rw [pingRun, hq]
    simp only [exceptBindOk]
    rw [hev, sendPayloadResult_datagram_ok m t0 t1 hmagic]
    simp only [exceptBindOk]
    rw [readUInt8_eval m 10 (by norm_num) (by push_cast; omega)]
    rw [show ((10 : Int).toNat) = 10 from rfl, hop]
    simp only [exceptBindOk]
    rw [if_neg (fun hcontra => hcontra rfl)]
    simp only [exceptPure, exceptBindOk]
    have hc : bufCompare nonce (m.drop 11) ≠ 0 := by
      intro h0
      have heq := (bufCompare_eq_zero nonce (m.drop 11)).mp h0
      apply hneq
      rw [← heq, ← hnlen, List.take_length]
    rw [if_pos hc]
    simp [exceptThrow, exceptBindError]

/-- Claim C6 (counterexample): the non-integer port 3/2 lies in range and
is accepted by the constructor, so construction does not fail for every
non-integer port. -/
theorem port_validation_counterexample :
    constructorThrows ⟨false, mkRat 3 2⟩ = false ∧ (mkRat 3 2).den ≠ 1 :=
  ⟨by decide, by decide⟩

/-- Claim C6 (amended): construction succeeds exactly when the port is a
number (not NaN) with 1 ≤ port ≤ 65535; integrality is not checked. -/
theorem port_validation_amended (p : JSNum) :
    constructorThrows p = false ↔ p.isNaN = false ∧ 1 ≤ p.val ∧ p.val ≤ 65535 := by
  rcases p with ⟨nan, v⟩
  cases nan <;> simp [constructorThrows, jsLt]

/-- Claim C7 (counterexample): a declared final string length of 100 with
only 2 bytes remaining decodes successfully with the string truncated —
no MalformedResponse is raised. -/
theorem length_overrun_counterexample :
    getInfoDecode ([0x53, 0x41, 0x4D, 0x50, 0, 0, 0, 0, 0, 0, 0x69, 1]
        ++ le16 0 ++ le16 0 ++ le32 0 ++ le32 0 ++ le32 100 ++ [65, 66])
      = .ok ⟨true, 0, 0, [], [], [65, 66]⟩ := by decide

/-- Claim C7 (amended): a declared length exceeding the remaining buffer
is not validated: the string read clamps to the end of the buffer and the
decode succeeds with the truncated remainder; a fixed-width read past the
end (rules decoder) fails with the Node range error, not
`InvalidMessageError`. -/
theorem length_overrun_amended (password : Bool) (players maxplayers : Nat)
    (s g tail : Buf) (declared : Nat)
    (hp : players < 32768) (hm : maxplayers < 32768)
    (hs : s.length < 2147483648) (hg : g.length < 2147483648)
    (hd : declared < 2147483648) (htail : tail.length ≤ declared) :
    getInfoDecode ([0x53, 0x41, 0x4D, 0x50, 0, 0, 0, 0, 0, 0, 0x69]
        ++ (if password then 1 else 0) :: (le16 players ++ le16 maxplayers
        ++ le32 s.length ++ s ++ le32 g.length ++ g ++ le32 declared ++ tail))
      = .ok ⟨password, players, maxplayers, s, g, tail⟩
    ∧ getRulesDecode ([0x53, 0x41, 0x4D, 0x50, 0, 0, 0, 0, 0, 0, 0x72] ++ le16 1 ++ [200])
      = .error (.rangeError "ERR_OUT_OF_RANGE") := by
  refine ⟨?_, by decide⟩
  set B := [0x53, 0x41, 0x4D, 0x50, 0, 0, 0, 0, 0, 0, 0x69]
      ++ (if password then 1 else 0) :: (le16 players ++ le16 maxplayers
      ++ le32 s.length ++ s ++ le32 g.length ++ g ++ le32 declared ++ tail) with hB
  rw [getInfoDecode]
  rw [readUInt8_at B [0x53, 0x41, 0x4D, 0x50, 0, 0, 0, 0, 0, 0]
    ((if password then 1 else 0) :: (le16 players ++ le16 maxplayers
      ++ le32 s.length ++ s ++ le32 g.length ++ g ++ le32 declared ++ tail)) 0x69 10
    (by rw [hB] <;> simp) (by simp)]
  simp only [exceptBindOk]
  rw [if_neg (fun hcontra => hcontra rfl)]
  simp only [exceptPure, exceptBindOk]
  rw [readInt8_at B [0x53, 0x41, 0x4D, 0x50, 0, 0, 0, 0, 0, 0, 0x69]
    (le16 players ++ le16 maxplayers ++ le32 s.length ++ s ++ le32 g.length ++ g
      ++ le32 declared ++ tail) (if password then 1 else 0) 11
    (by rw [hB] <;> simp) (by simp) (by cases password <;> decide)]
  simp only [exceptBindOk]
  rw [readInt16LE_at B
    [0x53, 0x41, 0x4D, 0x50, 0, 0, 0, 0, 0, 0, 0x69, (if password then 1 else 0)]
    (le16 maxplayers ++ le32 s.length ++ s ++ le32 g.length ++ g ++ le32 declared ++ tail)
    players 12
    (by rw [hB] <;> simp) (by simp) hp]
  simp only [exceptBindOk]
  rw [readInt16LE_at B
    ([0x53, 0x41, 0x4D, 0x50, 0, 0, 0, 0, 0, 0, 0x69, (if password then 1 else 0)]
      ++ le16 players)
    (le32 s.length ++ s ++ le32 g.length ++ g ++ le32 declared ++ tail) maxplayers 14
    (by rw [hB] <;> simp) (by simp [le16_length]) hm]
  simp only [exceptBindOk]
  rw [readInt32LE_at B
    ([0x53, 0x41, 0x4D, 0x50, 0, 0, 0, 0, 0, 0, 0x69, (if password then 1 else 0)]
      ++ le16 players ++ le16 maxplayers)
    (s ++ le32 g.length ++ g ++ le32 declared ++ tail) s.length 16
    (by rw [hB] <;> simp) (by simp [le16_length]) hs]
  simp only [exceptBindOk]
  rw [readInt32LE_at B
    ([0x53, 0x41, 0x4D, 0x50, 0, 0, 0, 0, 0, 0, 0x69, (if password then 1 else 0)]
      ++ le16 players ++ le16 maxplayers ++ le32 s.length ++ s)
    (g ++ le32 declared ++ tail) g.length (20 + (s.length : Int))
    (by rw [hB] <;> simp)
    (by simp [List.length_append, le16_length, le32_length] <;> push_cast <;> ring) hg]
  simp only [exceptBindOk]
  rw [readInt32LE_at B
    ([0x53, 0x41, 0x4D, 0x50, 0, 0, 0, 0, 0, 0, 0x69, (if password then 1 else 0)]
      ++ le16 players ++ le16 maxplayers ++ le32 s.length ++ s ++ le32 g.length ++ g)
    tail declared (20 + (s.length : Int) + 4 + (g.length : Int))
    (by rw [hB] <;> simp)
    (by simp [List.length_append, le16_length, le32_length] <;> push_cast <;> ring) hd]
  simp only [exceptBindOk]
  rw [bufToString_at B
    ([0x53, 0x41, 0x4D, 0x50, 0, 0, 0, 0, 0, 0, 0x69, (if password then 1 else 0)]
      ++ le16 players ++ le16 maxplayers ++ le32 s.length)
    s (le32 g.length ++ g ++ le32 declared ++ tail) 20 (20 + (s.length : Int))
    (by rw [hB] <;> simp) (by simp [le16_length, le32_length])
    (by simp [List.length_append, le16_length, le32_length] <;> push_cast <;> ring)]
  rw [bufToString_at B
    ([0x53, 0x41, 0x4D, 0x50, 0, 0, 0, 0, 0, 0, 0x69, (if password then 1 else 0)]
      ++ le16 players ++ le16 maxplayers ++ le32 s.length ++ s ++ le32 g.length)
    g (le32 declared ++ tail) (20 + (s.length : Int) + 4)
      (20 + (s.length : Int) + 4 + (g.length : Int))
    (by rw [hB] <;> simp)
    (by simp [List.length_append, le16_length, le32_length] <;> push_cast <;> ring)
    (by simp [List.length_append, le16_length, le32_length] <;> push_cast <;> ring)]
  rw [bufToString_clamp_at B
    ([0x53, 0x41, 0x4D, 0x50, 0, 0, 0, 0, 0, 0, 0x69, (if password then 1 else 0)]
      ++ le16 players ++ le16 maxplayers ++ le32 s.length ++ s ++ le32 g.length ++ g
      ++ le32 declared)
    tail declared (20 + (s.length : Int) + 4 + (g.length : Int) + 4)
      (20 + (s.length : Int) + 4 + (g.length : Int) + 4 + (declared : Int))
    (by rw [hB] <;> simp)
    (by simp [List.length_append, le16_length, le32_length] <;> push_cast <;> ring)
    (by simp [List.length_append, le16_length, le32_length] <;> push_cast <;> ring) htail]
  cases password <;> simp

/-- Claim C7 (amended, witness) at the counterexample input. -/
theorem length_overrun_amended_witness :
    getInfoDecode ([0x53, 0x41, 0x4D, 0x50, 0, 0, 0, 0, 0, 0, 0x69]
        ++ 0 :: (le16 0 ++ le16 0
        ++ le32 0 ++ [] ++ le32 0 ++ [] ++ le32 100 ++ [65, 66]))
      = .ok ⟨false, 0, 0, [], [], [65, 66]⟩ :=
  (length_overrun_amended false 0 0 [] [] [65, 66] 100
    (by decide) (by decide) (by decide) (by decide) (by decide) (by decide)).1

/-- Claim C8 (counterexample): a well-formed one-entry payload whose rule
is named `__proto__` decodes to the empty mapping — the assignment goes
through the inherited accessor and creates no own property — although the
name appears in the entries with last value `[65]`, so the universal
last-occurrence property fails as stated. -/
theorem rules_proto_counterexample :
    getRulesDecode (encodeRules
        [([0x5F, 0x5F, 0x70, 0x72, 0x6F, 0x74, 0x6F, 0x5F, 0x5F], [65])]) = .ok []
    ∧ lastValue [([0x5F, 0x5F, 0x70, 0x72, 0x6F, 0x74, 0x6F, 0x5F, 0x5F], [65])]
        [0x5F, 0x5F, 0x70, 0x72, 0x6F, 0x74, 0x6F, 0x5F, 0x5F] = some [65] :=
  ⟨by decide, by decide⟩

/-- Claim C8 (amended): a well-formed rules payload decodes to the object
built by JS assignment: zero entries give the empty mapping, N entries
give at most N keys, every name other than `__proto__` maps to its last
occurrence, and an entry named `__proto__` creates no own property (the
string assignment through the inherited accessor is a silent no-op). -/
theorem rules_decode_last_write_wins (entries : List (Buf × Buf))
    (hcount : entries.length < 32768)
    (hwf : ∀ e ∈ entries, e.1.length ≤ 255 ∧ e.2.length ≤ 255) :
    getRulesDecode (encodeRules entries) = .ok (rulesObject entries)
    ∧ (entries = [] → rulesObject entries = [])
    ∧ (rulesObject entries).length ≤ entries.length
    ∧ (∀ name ∈ entries.map Prod.fst, name ≠ protoName →
        jsGet (rulesObject entries) name = lastValue entries name)
    ∧ jsGet (rulesObject entries) protoName = none := by
  refine ⟨?_, ?_, rulesObject_length_le entries,
    fun name hm hn => jsGet_rulesObject_last entries name hn hm,
    jsGet_rulesObject_proto entries⟩
  · rw [getRulesDecode]
    rw [readUInt8_at (encodeRules entries) [0x53, 0x41, 0x4D, 0x50, 0, 0, 0, 0, 0, 0]
      (le16 entries.length ++ rulesBody entries) 0x72 10
      (by simp [encodeRules]) (by simp)]
    simp only [exceptBindOk]
    rw [if_neg (fun hcontra => hcontra rfl)]
    simp only [exceptPure, exceptBindOk]
    rw [readInt16LE_at (encodeRules entries) [0x53, 0x41, 0x4D, 0x50, 0, 0, 0, 0, 0, 0, 0x72]
      (rulesBody entries) entries.length 11 (by simp [encodeRules]) (by simp) hcount]
    simp only [exceptBindOk, Int.toNat_natCast]
    have hsplit : encodeRules entries
        = ([0x53, 0x41, 0x4D, 0x50, 0, 0, 0, 0, 0, 0, 0x72] ++ le16 entries.length)
          ++ rulesBody entries := by
      simp [encodeRules]
    have hoff : (13 : Nat)
        = ([0x53, 0x41, 0x4D, 0x50, 0, 0, 0, 0, 0, 0, 0x72] ++ le16 entries.length).length := by
      simp [le16_length]
    rw [hsplit, hoff, rulesLoop_encode entries _ []]
    rfl
  · intro h; subst h; rfl

/-- Claim C8 at a concrete input with a duplicate key: the second value
wins. -/
theorem rules_decode_last_write_wins_witness :
    getRulesDecode (encodeRules [([65], [66]), ([65], [67])]) = .ok [([65], [67])] :=
  (rules_decode_last_write_wins [([65], [66]), ([65], [67])] (by decide) (by decide)).1

/-- Claim C10: the entry count is read signed, so a count field of 0x8000
or above makes the loop run zero times and each list decoder returns an
empty result. -/
theorem signed_count_empty_result (message : Buf)
    (hlen : 13 ≤ message.length)
    (hhi : 32768 ≤ byteAt message 11 + 256 * byteAt message 12)
    (hlo : byteAt message 11 + 256 * byteAt message 12 < 65536) :
    (byteAt message 10 = 0x72 → getRulesDecode message = .ok [])
    ∧ (byteAt message 10 = 0x63 → getClientListDecode message = .ok [])
    ∧ (byteAt message 10 = 0x64 → getDetailedClientListDecode message = .ok []) := by
  have h16 : readInt16LE message 11
      = .ok (((byteAt message 11 + 256 * byteAt message 12 : Nat) : Int) - 65536) := by
    rw [readInt16LE_eval message 11 (by norm_num) (by push_cast; omega)]
    rw [show ((11 : Int).toNat) + 1 = 12 from rfl, show ((11 : Int).toNat) = 11 from rfl]
    rw [if_neg (by omega)]
  have h10 : readUInt8 message 10 = .ok (byteAt message 10) := by
    rw [readUInt8_eval message 10 (by norm_num) (by push_cast; omega)]
    rw [show ((10 : Int).toNat) = 10 from rfl]
  have hcount : (((byteAt message 11 + 256 * byteAt message 12 : Nat) : Int) - 65536).toNat
      = 0 := by omega
  refine ⟨?_, ?_, ?_⟩
  · intro hop
    rw [getRulesDecode, h10, hop]
    simp only [exceptBindOk]
    rw [if_neg (fun hcontra => hcontra rfl)]
    simp only [exceptPure, exceptBindOk]
    rw [h16]
    simp only [exceptBindOk, hcount]
    rfl
  · intro hop
    rw [getClientListDecode, h10, hop]
    simp only [exceptBindOk]
    rw [if_neg (fun hcontra => hcontra rfl)]
    simp only [exceptPure, exceptBindOk]
    rw [h16]
    simp only [exceptBindOk, hcount]
    rfl
  · intro hop
    rw [getDetailedClientListDecode, h10, hop]
    simp only [exceptBindOk]
    rw [if_neg (fun hcontra => hcontra rfl)]
    simp only [exceptPure, exceptBindOk]
    rw [h16]
    simp only [exceptBindOk, hcount]
    rfl

/-- Claim C10 at concrete inputs for the three decoders. -/
theorem signed_count_empty_result_witness :
    getRulesDecode [0x53, 0x41, 0x4D, 0x50, 0, 0, 0, 0, 0, 0, 0x72, 0, 0x80] = .ok []
    ∧ getClientListDecode [0x53, 0x41, 0x4D, 0x50, 0, 0, 0, 0, 0, 0, 0x63, 0xFF, 0xFF] = .ok []
    ∧ getDetailedClientListDecode [0x53, 0x41, 0x4D, 0x50, 0, 0, 0, 0, 0, 0, 0x64, 0, 0x80]
      = .ok [] :=
  ⟨(signed_count_empty_result [0x53, 0x41, 0x4D, 0x50, 0, 0, 0, 0, 0, 0, 0x72, 0, 0x80]
      (by decide) (by decide) (by decide)).1 (by decide),
   (signed_count_empty_result [0x53, 0x41, 0x4D, 0x50, 0, 0, 0, 0, 0, 0, 0x63, 0xFF, 0xFF]
      (by decide) (by decide) (by decide)).2.1 (by decide),
   (signed_count_empty_result [0x53, 0x41, 0x4D, 0x50, 0, 0, 0, 0, 0, 0, 0x64, 0, 0x80]
      (by decide) (by decide) (by decide)).2.2 (by decide)⟩

end SAMPQuery
